import Mathlib

/-!
Verification of the inventory tracker `src/inventory.py`.

The program manipulates a Python dict mapping item identifiers to
quantities, with add/remove/query/report operations and JSON-file
persistence.  The embedding below models Python values with the
inductive `PyVal`, a Python dict as an insertion-ordered association
list (`PyDict`), and the `TypeError`-raising dynamic operations
(`+`, `-`, `<`, hashing of dict keys) as `Except Unit` computations.
Logging is modelled by the list of levels emitted by a call; the text
of a log message (which embeds a wall-clock timestamp) is abstracted.
The `json` module is modelled at the level of parsed JSON values: a
file is either missing, holds text that is not valid JSON, or holds
a parsed JSON value (`FileContent`); the concrete character-level
encoding is abstracted.
-/

/-- Severity levels of the `logging` calls in the source. -/
inductive LogLevel where
  | info
  | warning
  | error
deriving DecidableEq, Repr

/-- A Python runtime value, restricted to the shapes the program can
encounter: `None`, booleans, (arbitrary-precision) integers, strings,
lists and dicts.  Floats never arise in the claims and are omitted. -/
inductive PyVal where
  | none
  | bool (b : Bool)
  | int (n : Int)
  | str (s : String)
  | list (xs : List PyVal)
  | dict (entries : List (PyVal × PyVal))

/-- A Python dict as an insertion-ordered association list.  Real dicts
additionally keep their keys distinct and hashable; where a proof needs
those facts they appear as explicit hypotheses. -/
abbrev PyDict := List (PyVal × PyVal)

/-- Python `bool` is an `int` subclass: `True` is `1`, `False` is `0`. -/
def boolToInt (b : Bool) : Int := if b then 1 else 0

/-- Whether a value may be used as a dict key; Python lists and dicts
are unhashable and hashing them raises `TypeError`. -/
def PyVal.hashable : PyVal → Bool
  | .list _ => false
  | .dict _ => false
  | _ => true

/-- Python `==` on the hashable (atomic) values; composite values are
unhashable, are never stored as dict keys, and key comparison against
them never happens in an execution, so they compare unequal here. -/
def pyEq : PyVal → PyVal → Bool
  | .none, .none => true
  | .bool a, .bool b => a == b
  | .bool a, .int n => boolToInt a == n
  | .int n, .bool b => n == boolToInt b
  | .int m, .int n => m == n
  | .str s, .str t => s == t
  | _, _ => false

/-- First value stored under a key equal to `key` (dict lookup). -/
def lookupVal (d : PyDict) (key : PyVal) : Option PyVal :=
  match d with
  | [] => Option.none
  | (k, v) :: rest => if pyEq k key then some v else lookupVal rest key

/-- `d[key] = v`: replace the value at the first entry whose key equals
`key` (the stored key object is kept), else append a fresh entry. -/
def setEntry (d : PyDict) (key v : PyVal) : PyDict :=
  match d with
  | [] => [(key, v)]
  | (k, w) :: rest =>
    if pyEq k key then (k, v) :: rest else (k, w) :: setEntry rest key v

/-- `del d[key]`: drop the first entry whose key equals `key`. -/
def delEntry (d : PyDict) (key : PyVal) : PyDict :=
  match d with
  | [] => []
  | (k, w) :: rest => if pyEq k key then rest else (k, w) :: delEntry rest key

/-- `d.get(key, default)`: hashing an unhashable key raises
`TypeError`; otherwise the stored value, else the default. -/
def dictGet (d : PyDict) (key default : PyVal) : Except Unit PyVal :=
  if key.hashable then Except.ok ((lookupVal d key).getD default)
  else Except.error ()

/-- Python `+` on the modelled values: numeric addition (bools count
as ints), string and list concatenation; anything else raises
`TypeError`. -/
def pyAdd : PyVal → PyVal → Except Unit PyVal
  | .int a, .int b => Except.ok (.int (a + b))
  | .int a, .bool b => Except.ok (.int (a + boolToInt b))
  | .bool a, .int b => Except.ok (.int (boolToInt a + b))
  | .bool a, .bool b => Except.ok (.int (boolToInt a + boolToInt b))
  | .str a, .str b => Except.ok (.str (a ++ b))
  | .list a, .list b => Except.ok (.list (a ++ b))
  | _, _ => Except.error ()

/-- Python `-` on the modelled values: defined exactly on numbers
(bools count as ints) and always yields an int; anything else raises
`TypeError`. -/
def pySub : PyVal → PyVal → Except Unit Int
  | .int a, .int b => Except.ok (a - b)
  | .int a, .bool b => Except.ok (a - boolToInt b)
  | .bool a, .int b => Except.ok (boolToInt a - b)
  | .bool a, .bool b => Except.ok (boolToInt a - boolToInt b)
  | _, _ => Except.error ()

/-- Python `<` on the modelled values: numeric comparison (bools count
as ints) and lexicographic string comparison; comparisons between
other shapes raise `TypeError`.  (Python also compares two lists
elementwise; no claim involves that case and it is not modelled.) -/
def pyLt : PyVal → PyVal → Except Unit Bool
  | .int a, .int b => Except.ok (decide (a < b))
  | .int a, .bool b => Except.ok (decide (a < boolToInt b))
  | .bool a, .int b => Except.ok (decide (boolToInt a < b))
  | .bool a, .bool b => Except.ok (decide (boolToInt a < boolToInt b))
  | .str a, .str b => Except.ok (decide (a < b))
  | _, _ => Except.error ()

/-- One entry appended to the caller-supplied `logs` list by a
successful `add_item`; the formatted timestamped string is abstracted
to the pair it interpolates. -/
structure AddLog where
  item : PyVal
  qty : PyVal

/-- The `try` body of `add_item` up to the computed new value:
`data.get(item, 0) + qty`.  This is exactly the part of the call that
can raise `TypeError`. -/
def addAttempt (data : PyDict) (item qty : PyVal) : Except Unit PyVal :=
  match dictGet data item (.int 0) with
  | Except.ok cur => pyAdd cur qty
  | Except.error e => Except.error e

/-- `add_item(data, item, qty, logs)`: on success stores
`data.get(item, 0) + qty` under `item`, appends to `logs` and logs
INFO; a `TypeError` (unhashable `item` or incompatible `+`) is caught
and logged at ERROR level with no mutation.  Returns the dict, the
`logs` list and the levels logged to the console. -/
def add_item (data : PyDict) (item qty : PyVal) (logs : List AddLog) :
    PyDict × List AddLog × List LogLevel :=
  match addAttempt data item qty with
  | Except.ok v => (setEntry data item v, logs ++ [⟨item, qty⟩], [LogLevel.info])
  | Except.error _ => (data, logs, [LogLevel.error])

/-- `remove_item(data, item, qty)`: if `item` is present, subtracts
`qty` and deletes the key when the result is `<= 0`, logging INFO; if
absent, logs WARNING with no mutation; a `TypeError` (unhashable
`item`, or `-` undefined on the operands) is caught and logged at
ERROR level with no mutation. -/
def remove_item (data : PyDict) (item qty : PyVal) : PyDict × List LogLevel :=
  if item.hashable then
    match lookupVal data item with
    | some cur =>
      match pySub cur qty with
      | Except.ok n =>
        if n ≤ 0 then (delEntry data item, [LogLevel.info])
        else (setEntry data item (.int n), [LogLevel.info])
      | Except.error _ => (data, [LogLevel.error])
    | Option.none => (data, [LogLevel.warning])
  else (data, [LogLevel.error])

/-- `get_qty(data, item)`: `data.get(item, 0)`.  The dict is returned
alongside the result to state frame properties. -/
def get_qty (data : PyDict) (item : PyVal) : PyDict × Except Unit PyVal :=
  (data, dictGet data item (.int 0))

/-- The list comprehension inside `check_low_items`, left to right; a
`TypeError` from a comparison propagates (it is not caught). -/
def lowScan (entries : PyDict) (threshold : PyVal) : Except Unit (List PyVal) :=
  match entries with
  | [] => Except.ok []
  | (item, quantity) :: rest =>
    match pyLt quantity threshold with
    | Except.ok b =>
      match lowScan rest threshold with
      | Except.ok l => Except.ok (if b then item :: l else l)
      | Except.error e => Except.error e
    | Except.error e => Except.error e

/-- `check_low_items(data, threshold)`: the items whose quantity
compares `< threshold`, in iteration order.  The dict is returned
alongside the result to state frame properties. -/
def check_low_items (data : PyDict) (threshold : PyVal) :
    PyDict × Except Unit (List PyVal) :=
  (data, lowScan data threshold)

/-- One line of the report printed by `print_data`; the concrete text
of a line is abstracted to its structure. -/
inductive ReportLine where
  | header
  | emptyMsg
  | entry (item quantity : PyVal)
  | footer

/-- `print_data(data)`: the bordered report, one line per entry in
iteration order, or the empty message.  The dict is returned alongside
the lines to state frame properties. -/
def print_data (data : PyDict) : PyDict × List ReportLine :=
  (data,
    [ReportLine.header] ++
      (if data.isEmpty then [ReportLine.emptyMsg]
       else data.map fun kv => ReportLine.entry kv.1 kv.2) ++
      [ReportLine.footer])

/-- State of the file at one path, with the `json` module modelled at
the level of parsed values: absent, present with text that is not
valid JSON, or present with a parsed JSON value. -/
inductive FileContent where
  | missing
  | invalid
  | valid (v : PyVal)

/-- The file system: content of the file at each path. -/
abbrev FS := String → FileContent

/-- `load_data(file)`: the parsed value of an existing valid file
(INFO); an empty dict with a WARNING on `FileNotFoundError`; an empty
dict on `json.JSONDecodeError` — the source logs its "loaded
successfully" INFO line before parsing, so the invalid case logs INFO
then ERROR. -/
def load_data (fs : FS) (file : String) : PyVal × List LogLevel :=
  match fs file with
  | FileContent.missing => (PyVal.dict [], [LogLevel.warning])
  | FileContent.invalid => (PyVal.dict [], [LogLevel.info, LogLevel.error])
  | FileContent.valid v => (v, [LogLevel.info])

/-- `json.dump` conversion of a dict key: keys must be strings,
numbers, booleans or `None` and are written as strings; other keys
raise `TypeError`. -/
def keyToJson : PyVal → Option PyVal
  | .str s => some (.str s)
  | .int n => some (.str (toString n))
  | .bool b => some (.str (if b then "true" else "false"))
  | .none => some (.str "null")
  | _ => Option.none

mutual

/-- The JSON value `json.dump` writes for a Python value, `Option.none`
when the value is not JSON-serializable (`TypeError`). -/
def dumpJson : PyVal → Option PyVal
  | .none => some .none
  | .bool b => some (.bool b)
  | .int n => some (.int n)
  | .str s => some (.str s)
  | .list xs =>
    match dumpList xs with
    | some ys => some (.list ys)
    | Option.none => Option.none
  | .dict es =>
    match dumpEntries es with
    | some es' => some (.dict es')
    | Option.none => Option.none

/-- `dumpJson` on the elements of a list. -/
def dumpList : List PyVal → Option (List PyVal)
  | [] => some []
  | x :: xs =>
    match dumpJson x, dumpList xs with
    | some y, some ys => some (y :: ys)
    | _, _ => Option.none

/-- `dumpJson` on the entries of a dict. -/
def dumpEntries : List (PyVal × PyVal) → Option (List (PyVal × PyVal))
  | [] => some []
  | (k, v) :: es =>
    match keyToJson k, dumpJson v, dumpEntries es with
    | some k', some v', some es' => some ((k', v') :: es')
    | _, _, _ => Option.none

end

/-- `save_data(data, file)`: writes the serialized value wholesale to
`file` and logs INFO; `json.dump` raises `TypeError` on
non-serializable data and that exception propagates (no `try`). -/
def save_data (data : PyVal) (fs : FS) (file : String) :
    Except Unit (FS × List LogLevel) :=
  match dumpJson data with
  | some j =>
    Except.ok (fun p => if p = file then FileContent.valid j else fs p,
      [LogLevel.info])
  | Option.none => Except.error ()

/-- The file system after a successful `save_data` of the dict `d`:
the saved path holds `d` as a JSON object, other paths are untouched. -/
def fsAfterSave (d : PyDict) (fs : FS) (file : String) : FS :=
  fun p => if p = file then FileContent.valid (PyVal.dict d) else fs p

/-- One mutating call of the program: `add_item` or `remove_item` with
a string item and an integer quantity (the well-typed calls). -/
inductive Op where
  | add (item : String) (qty : Int)
  | remove (item : String) (qty : Int)

/-- The quantity argument of an operation. -/
def Op.qty : Op → Int
  | .add _ q => q
  | .remove _ q => q

/-- The dict after one call (each call site passes a fresh, discarded
`logs` list, as in the source's defaults). -/
def applyOp (d : PyDict) (op : Op) : PyDict :=
  match op with
  | .add i q => (add_item d (PyVal.str i) (PyVal.int q) []).1
  | .remove i q => (remove_item d (PyVal.str i) (PyVal.int q)).1

/-- The dict after a sequence of calls starting from the empty dict. -/
def runOps (ops : List Op) : PyDict := List.foldl applyOp [] ops

/-- Modelled from the spec: one step of the per-item running total of
adds minus removes, "clamped at each step: whenever the running total
would be ≤ 0 the item is absent (its quantity treated as 0)". -/
def clampStep (item : String) (t : Int) (op : Op) : Int :=
  match op with
  | .add i q => if i = item then (if t + q ≤ 0 then 0 else t + q) else t
  | .remove i q => if i = item then (if t - q ≤ 0 then 0 else t - q) else t

/-- Modelled from the spec: the clamped running total for `item` over
a sequence of calls, starting from 0 (absent). -/
def specQty (ops : List Op) (item : String) : Int :=
  List.foldl (clampStep item) 0 ops

/-- One stored entry satisfies the documented invariant: a string key
with a strictly positive integer quantity. -/
def entryOk (kv : PyVal × PyVal) : Bool :=
  match kv with
  | (PyVal.str _, PyVal.int n) => decide (0 < n)
  | _ => false

/-- The documented inventory invariant: every stored entry is a string
key with a strictly positive integer quantity. -/
def invHolds (d : PyDict) : Bool := d.all entryOk

/-- Every operation of a sequence carries a strictly positive
quantity. -/
def opsPos (ops : List Op) : Bool := ops.all fun op => decide (0 < op.qty)

/-- Every stored value of a dict is an integer. -/
def valsInt (d : PyDict) : Bool :=
  d.all fun kv =>
    match kv.2 with
    | PyVal.int _ => true
    | _ => false

/-- Every key of a dict is a string and every value an integer. -/
def strIntDict (d : PyDict) : Bool :=
  d.all fun kv =>
    match kv with
    | (PyVal.str _, PyVal.int _) => true
    | _ => false

/-- Modelled from the spec: a stored quantity is an integer strictly
below the threshold `t`. -/
def qtyBelow (v : PyVal) (t : Int) : Bool :=
  match v with
  | PyVal.int n => decide (n < t)
  | _ => false

/-- Modelled from the spec: "every item whose quantity is strictly
less than `threshold`", in the dict's iteration order. -/
def lowItemsSpec (d : PyDict) (t : Int) : List PyVal :=
  (d.filter fun kv => qtyBelow kv.2 t).map Prod.fst

/-- The inventory reached by the demonstration's well-typed calls:
apple 10 added, banana 2 added, apple 3 removed. -/
def demoInv : PyDict :=
  [(PyVal.str "apple", PyVal.int 7), (PyVal.str "banana", PyVal.int 2)]

/-- The demonstration sequence's well-typed calls. -/
def demoOps : List Op :=
  [Op.add "apple" 10, Op.add "banana" 2, Op.remove "apple" 3,
    Op.remove "orange" 1]

/-- A concrete file system used to instantiate the load theorems. -/
def fsDemo : FS :=
  fun p => if p = "missing.json" then FileContent.missing else FileContent.invalid

/-- Every key of the dict is a string. -/
def StrKeys (d : PyDict) : Prop := ∀ kv ∈ d, ∃ s, kv.1 = PyVal.str s

/-- Every value of the dict is a strictly positive integer. -/
def PosVals (d : PyDict) : Prop := ∀ kv ∈ d, ∃ n : Int, kv.2 = PyVal.int n ∧ 0 < n

/-- The keys of the dict are pairwise distinct, as in a real dict. -/
def NodupKeys (d : PyDict) : Prop := d.Pairwise fun a b => a.1 ≠ b.1

/-- The shape of a real inventory dict satisfying the documented
invariant: distinct string keys, strictly positive integer values. -/
def GoodDict (d : PyDict) : Prop := StrKeys d ∧ PosVals d ∧ NodupKeys d

/-- The quantity a lookup result denotes; non-integers map to 0. -/
def valInt (v : PyVal) : Int :=
  match v with
  | PyVal.int n => n
  | _ => 0

/-- The stored quantity of `item`, with an absent item counted as 0. -/
def codeQty (d : PyDict) (item : String) : Int :=
  match lookupVal d (PyVal.str item) with
  | some v => valInt v
  | Option.none => 0

lemma pyEq_str_refl (s : String) : pyEq (PyVal.str s) (PyVal.str s) = true := by
  simp [pyEq]

lemma pyEq_str_right {k : PyVal} {s : String} (h : pyEq k (PyVal.str s) = true) :
    k = PyVal.str s := by
  cases k <;> simp_all [pyEq]

lemma pyEq_str_str_false {a b : String} (h : a ≠ b) :
    pyEq (PyVal.str a) (PyVal.str b) = false := by
  simp [pyEq, h]

lemma lookup_mem {d : PyDict} {key v : PyVal} (h : lookupVal d key = some v) :
    ∃ k, (k, v) ∈ d ∧ pyEq k key = true := by
  induction d with
  | nil => simp [lookupVal] at h
  | cons kv rest ih =>
    obtain ⟨k₀, v₀⟩ := kv
    by_cases hk : pyEq k₀ key = true
    · refine ⟨k₀, ?_, hk⟩
      simp [lookupVal, hk] at h
      simp [h]
    · simp [lookupVal, hk] at h
      obtain ⟨k, hmem, hke⟩ := ih h
      exact ⟨k, List.mem_cons_of_mem _ hmem, hke⟩

lemma lookup_none_of {d : PyDict} {key : PyVal}
    (h : ∀ kv ∈ d, pyEq kv.1 key = false) : lookupVal d key = Option.none := by
  induction d with
  | nil => rfl
  | cons kv rest ih =>
    obtain ⟨k₀, v₀⟩ := kv
    have hk := h (k₀, v₀) (List.mem_cons_self _ _)
    simp only [lookupVal, hk]
    simp only [Bool.false_eq_true, if_false]
    exact ih fun kv hm => h kv (List.mem_cons_of_mem _ hm)

lemma lookupVal_setEntry_self (d : PyDict) (s : String) (v : PyVal) :
    lookupVal (setEntry d (PyVal.str s) v) (PyVal.str s) = some v := by
  induction d with
  | nil => simp [setEntry, lookupVal, pyEq_str_refl]
  | cons kv rest ih =>
    obtain ⟨k₀, w⟩ := kv
    by_cases hk : pyEq k₀ (PyVal.str s) = true
    · simp [setEntry, hk, lookupVal]
    · simp [setEntry, hk, lookupVal, ih]

lemma lookupVal_setEntry_other (d : PyDict) {s t : String} (v : PyVal)
    (hst : s ≠ t) :
    lookupVal (setEntry d (PyVal.str s) v) (PyVal.str t)
      = lookupVal d (PyVal.str t) := by
  induction d with
  | nil => simp [setEntry, lookupVal, pyEq_str_str_false hst]
  | cons kv rest ih =>
    obtain ⟨k₀, w⟩ := kv
    by_cases hk : pyEq k₀ (PyVal.str s) = true
    · have hk₀ : k₀ = PyVal.str s := pyEq_str_right hk
      subst hk₀
      simp [setEntry, hk, lookupVal, pyEq_str_str_false hst]
    · simp [setEntry, hk, lookupVal, ih]

lemma mem_delEntry {d : PyDict} {key : PyVal} {kv : PyVal × PyVal}
    (h : kv ∈ delEntry d key) : kv ∈ d := by
  induction d with
  | nil => simp [delEntry] at h
  | cons kv₀ rest ih =>
    obtain ⟨k₀, w⟩ := kv₀
    by_cases hk : pyEq k₀ key = true
    · simp [delEntry, hk] at h
      exact List.mem_cons_of_mem _ h
    · simp [delEntry, hk] at h
      rcases h with h | h
      · simp [h]
      · exact List.mem_cons_of_mem _ (ih h)

lemma delEntry_sublist (d : PyDict) (key : PyVal) :
    List.Sublist (delEntry d key) d := by
  induction d with
  | nil => simp [delEntry]
  | cons kv rest ih =>
    obtain ⟨k₀, w⟩ := kv
    by_cases hk : pyEq k₀ key = true
    · simp only [delEntry, hk, if_true]
      exact List.Sublist.cons _ (List.Sublist.refl rest)
    · simp only [delEntry, hk, Bool.false_eq_true, if_false]
      exact List.Sublist.cons₂ (k₀, w) ih

lemma lookupVal_delEntry_self {d : PyDict} {s : String}
    (hs : StrKeys d) (hnd : NodupKeys d) :
    lookupVal (delEntry d (PyVal.str s)) (PyVal.str s) = Option.none := by
  induction d with
  | nil => rfl
  | cons kv rest ih =>
    obtain ⟨k₀, w⟩ := kv
    rw [NodupKeys, List.pairwise_cons] at hnd
    by_cases hk : pyEq k₀ (PyVal.str s) = true
    · have hk₀ : k₀ = PyVal.str s := pyEq_str_right hk
      subst hk₀
      simp only [delEntry, hk, if_true]
      refine lookup_none_of fun kv hm => ?_
      obtain ⟨u, hu⟩ := hs kv (List.mem_cons_of_mem _ hm)
      have hne : (PyVal.str s, w).1 ≠ kv.1 := hnd.1 kv hm
      rw [hu]
      rw [hu] at hne
      exact pyEq_str_str_false fun hus => hne (by rw [hus])
    · simp only [delEntry, hk, Bool.false_eq_true, if_false, lookupVal]
      exact ih (fun kv hm => hs kv (List.mem_cons_of_mem _ hm)) hnd.2

lemma lookupVal_delEntry_other (d : PyDict) {s t : String} (hst : s ≠ t) :
    lookupVal (delEntry d (PyVal.str s)) (PyVal.str t)
      = lookupVal d (PyVal.str t) := by
  induction d with
  | nil => rfl
  | cons kv rest ih =>
    obtain ⟨k₀, w⟩ := kv
    by_cases hk : pyEq k₀ (PyVal.str s) = true
    · have hk₀ : k₀ = PyVal.str s := pyEq_str_right hk
      subst hk₀
      simp [delEntry, hk, lookupVal, pyEq_str_str_false hst]
    · simp [delEntry, hk, lookupVal, ih]

lemma mem_setEntry_key {d : PyDict} {key v : PyVal} {a b : PyVal}
    (h : (a, b) ∈ setEntry d key v) : (∃ c, (a, c) ∈ d) ∨ a = key := by
  induction d with
  | nil =>
    simp [setEntry] at h
    exact Or.inr h.1
  | cons kv rest ih =>
    obtain ⟨k₀, w⟩ := kv
    by_cases hk : pyEq k₀ key = true
    · simp only [setEntry, hk, if_true] at h
      rcases List.mem_cons.1 h with h | h
      · have ha : a = k₀ := by injection h with h1 h2
        exact Or.inl ⟨w, by rw [ha]; exact List.mem_cons_self _ _⟩
      · exact Or.inl ⟨b, List.mem_cons_of_mem _ h⟩
    · simp only [setEntry, hk, Bool.false_eq_true, if_false] at h
      rcases List.mem_cons.1 h with h | h
      · exact Or.inl ⟨b, by simp [h]⟩
      · rcases ih h with ⟨c, hc⟩ | h
        · exact Or.inl ⟨c, List.mem_cons_of_mem _ hc⟩
        · exact Or.inr h

lemma good_nil : GoodDict [] := by
  refine ⟨?_, ?_, ?_⟩ <;> simp [StrKeys, PosVals, NodupKeys]

lemma good_cons {kv : PyVal × PyVal} {rest : PyDict}
    (h : GoodDict (kv :: rest)) : GoodDict rest := by
  obtain ⟨hs, hp, hn⟩ := h
  rw [NodupKeys, List.pairwise_cons] at hn
  exact ⟨fun x hx => hs x (List.mem_cons_of_mem _ hx),
    fun x hx => hp x (List.mem_cons_of_mem _ hx), hn.2⟩

lemma setEntry_good {d : PyDict} (hd : GoodDict d) (s : String) {n : Int}
    (hn : 0 < n) : GoodDict (setEntry d (PyVal.str s) (PyVal.int n)) := by
  induction d with
  | nil =>
    refine ⟨?_, ?_, ?_⟩
    · intro kv hm
      simp [setEntry] at hm
      exact ⟨s, by simp [hm]⟩
    · intro kv hm
      simp [setEntry] at hm
      exact ⟨n, by simp [hm], hn⟩
    · simp [setEntry, NodupKeys]
  | cons kv rest ih =>
    obtain ⟨k₀, w⟩ := kv
    obtain ⟨hs, hp, hnd⟩ := hd
    rw [NodupKeys, List.pairwise_cons] at hnd
    by_cases hk : pyEq k₀ (PyVal.str s) = true
    · have hk₀ : k₀ = PyVal.str s := pyEq_str_right hk
      simp only [setEntry, hk, if_true]
      refine ⟨?_, ?_, ?_⟩
      · intro x hx
        rcases List.mem_cons.1 hx with hx | hx
        · exact ⟨s, by simp [hx, hk₀]⟩
        · exact hs x (List.mem_cons_of_mem _ hx)
      · intro x hx
        rcases List.mem_cons.1 hx with hx | hx
        · exact ⟨n, by simp [hx], hn⟩
        · exact hp x (List.mem_cons_of_mem _ hx)
      · rw [NodupKeys, List.pairwise_cons]
        exact ⟨fun x hx => hnd.1 x hx, hnd.2⟩
    · have ihg := ih (good_cons ⟨hs, hp, by rw [NodupKeys, List.pairwise_cons]; exact hnd⟩)
      simp only [setEntry, hk, Bool.false_eq_true, if_false]
      refine ⟨?_, ?_, ?_⟩
      · intro x hx
        rcases List.mem_cons.1 hx with hx | hx
        · exact hs x (by simp [hx])
        · exact ihg.1 x hx
      · intro x hx
        rcases List.mem_cons.1 hx with hx | hx
        · exact hp x (by simp [hx])
        · exact ihg.2.1 x hx
      · rw [NodupKeys, List.pairwise_cons]
        refine ⟨?_, ihg.2.2⟩
        intro x hx
        obtain ⟨a, b⟩ := x
        rcases mem_setEntry_key hx with ⟨c, hc⟩ | ha
        · exact hnd.1 (a, c) hc
        · subst ha
          intro hcontra
          have hk₀ : k₀ = PyVal.str s := hcontra
          rw [hk₀] at hk
          exact hk (pyEq_str_refl s)

lemma delEntry_good {d : PyDict} (hd : GoodDict d) (key : PyVal) :
    GoodDict (delEntry d key) := by
  obtain ⟨hs, hp, hn⟩ := hd
  exact ⟨fun x hx => hs x (mem_delEntry hx),
    fun x hx => hp x (mem_delEntry hx),
    List.Pairwise.sublist (delEntry_sublist d key) hn⟩

lemma good_lookup {d : PyDict} (hd : GoodDict d) {i : String} {v : PyVal}
    (h : lookupVal d (PyVal.str i) = some v) :
    ∃ n : Int, v = PyVal.int n ∧ 0 < n := by
  obtain ⟨k, hmem, _⟩ := lookup_mem h
  exact hd.2.1 (k, v) hmem

lemma getD_int {d : PyDict} (hd : GoodDict d) (i : String) :
    (lookupVal d (PyVal.str i)).getD (PyVal.int 0) = PyVal.int (codeQty d i) := by
  cases h : lookupVal d (PyVal.str i) with
  | none => simp [codeQty, h]
  | some v =>
    obtain ⟨n, hv, _⟩ := good_lookup hd h
    simp [codeQty, h, hv, valInt]

lemma codeQty_nonneg {d : PyDict} (hd : GoodDict d) (i : String) :
    0 ≤ codeQty d i := by
  cases h : lookupVal d (PyVal.str i) with
  | none => simp [codeQty, h]
  | some v =>
    obtain ⟨n, hv, hn⟩ := good_lookup hd h
    simp [codeQty, h, hv, valInt]
    omega

lemma codeQty_lookup {d : PyDict} (hd : GoodDict d) (i : String) :
    lookupVal d (PyVal.str i)
      = (if codeQty d i ≤ 0 then Option.none else some (PyVal.int (codeQty d i))) := by
  cases h : lookupVal d (PyVal.str i) with
  | none => simp [codeQty, h]
  | some v =>
    obtain ⟨n, hv, hn⟩ := good_lookup hd h
    have : codeQty d i = n := by simp [codeQty, h, hv, valInt]
    rw [this, hv]
    simp
    omega

lemma applyOp_add_red {d : PyDict} (hd : GoodDict d) (i : String) (q : Int) :
    applyOp d (Op.add i q)
      = setEntry d (PyVal.str i) (PyVal.int (codeQty d i + q)) := by
  simp [applyOp, add_item, addAttempt, dictGet, PyVal.hashable, getD_int hd, pyAdd]

lemma codeQty_setEntry_self (d : PyDict) (i : String) (m : Int) :
    codeQty (setEntry d (PyVal.str i) (PyVal.int m)) i = m := by
  simp [codeQty, lookupVal_setEntry_self, valInt]

lemma codeQty_setEntry_other (d : PyDict) {i j : String} (h : i ≠ j)
    (v : PyVal) : codeQty (setEntry d (PyVal.str i) v) j = codeQty d j := by
  simp [codeQty, lookupVal_setEntry_other d v h]

lemma codeQty_delEntry_self {d : PyDict} (hs : StrKeys d) (hnd : NodupKeys d)
    (i : String) : codeQty (delEntry d (PyVal.str i)) i = 0 := by
  simp [codeQty, lookupVal_delEntry_self hs hnd]

lemma codeQty_delEntry_other (d : PyDict) {i j : String} (h : i ≠ j) :
    codeQty (delEntry d (PyVal.str i)) j = codeQty d j := by
  simp [codeQty, lookupVal_delEntry_other d h]

lemma applyOp_step (d : PyDict) (op : Op) (hd : GoodDict d) (hq : 0 < op.qty) :
    GoodDict (applyOp d op) ∧
      ∀ item, codeQty (applyOp d op) item = clampStep item (codeQty d item) op := by
  cases op with
  | add i q =>
    have hq' : 0 < q := hq
    have hnn := codeQty_nonneg hd i
    have hpos : 0 < codeQty d i + q := by omega
    rw [applyOp_add_red hd]
    refine ⟨setEntry_good hd i hpos, fun item => ?_⟩
    by_cases hit : i = item
    · subst hit
      rw [codeQty_setEntry_self]
      simp only [clampStep, if_pos rfl, if_true]
      omega
    · rw [codeQty_setEntry_other d hit]
      simp [clampStep, hit]
  | remove i q =>
    have hq' : 0 < q := hq
    cases hl : lookupVal d (PyVal.str i) with
    | none =>
      have hred : applyOp d (Op.remove i q) = d := by
        simp [applyOp, remove_item, PyVal.hashable, hl]
      have hzero : codeQty d i = 0 := by simp [codeQty, hl]
      rw [hred]
      refine ⟨hd, fun item => ?_⟩
      by_cases hit : i = item
      · subst hit
        simp only [clampStep, if_pos rfl]
        omega
      · simp [clampStep, hit]
    | some v =>
      obtain ⟨n, hv, hn⟩ := good_lookup hd hl
      subst hv
      have hcode : codeQty d i = n := by simp [codeQty, hl, valInt]
      by_cases hle : n - q ≤ 0
      · have hred : applyOp d (Op.remove i q) = delEntry d (PyVal.str i) := by
          simp [applyOp, remove_item, PyVal.hashable, hl, pySub, hle]
        rw [hred]
        refine ⟨delEntry_good hd _, fun item => ?_⟩
        by_cases hit : i = item
        · subst hit
          rw [codeQty_delEntry_self hd.1 hd.2.2]
          simp only [clampStep, if_pos rfl, if_true]
          omega
        · rw [codeQty_delEntry_other d hit]
          simp [clampStep, hit]
      · have hred : applyOp d (Op.remove i q)
            = setEntry d (PyVal.str i) (PyVal.int (n - q)) := by
          simp [applyOp, remove_item, PyVal.hashable, hl, pySub, hle]
        have hpos : 0 < n - q := by omega
        rw [hred]
        refine ⟨setEntry_good hd i hpos, fun item => ?_⟩
        by_cases hit : i = item
        · subst hit
          rw [codeQty_setEntry_self]
          simp only [clampStep, if_pos rfl, if_true]
          omega
        · rw [codeQty_setEntry_other d hit]
          simp [clampStep, hit]

lemma runOps_from (ops : List Op) :
    ∀ d, GoodDict d → (∀ op ∈ ops, 0 < op.qty) →
      GoodDict (List.foldl applyOp d ops) ∧
        ∀ item, codeQty (List.foldl applyOp d ops) item
          = List.foldl (clampStep item) (codeQty d item) ops := by
  induction ops with
  | nil =>
    intro d hd _
    exact ⟨hd, fun item => rfl⟩
  | cons op ops ih =>
    intro d hd hpos
    have hstep := applyOp_step d op hd (hpos op (by simp))
    have ihh := ih (applyOp d op) hstep.1 fun o ho => hpos o (by simp [ho])
    refine ⟨by simpa using ihh.1, fun item => ?_⟩
    rw [List.foldl_cons, List.foldl_cons, ihh.2 item, hstep.2 item]

lemma opsPos_iff {ops : List Op} :
    opsPos ops = true ↔ ∀ op ∈ ops, 0 < op.qty := by
  simp [opsPos, List.all_eq_true]

lemma good_runOps {ops : List Op} (h : opsPos ops = true) :
    GoodDict (runOps ops) :=
  (runOps_from ops [] good_nil (opsPos_iff.1 h)).1

lemma codeQty_runOps {ops : List Op} (h : opsPos ops = true) (item : String) :
    codeQty (runOps ops) item = specQty ops item :=
  (runOps_from ops [] good_nil (opsPos_iff.1 h)).2 item

lemma invHolds_of_good {d : PyDict} (hd : GoodDict d) : invHolds d = true := by
  rw [invHolds, List.all_eq_true]
  intro kv hm
  obtain ⟨k, v⟩ := kv
  obtain ⟨s, hs⟩ := hd.1 (k, v) hm
  obtain ⟨n, hv, hn⟩ := hd.2.1 (k, v) hm
  simp only at hs hv
  subst hs
  subst hv
  simp [entryOk, hn]

lemma lowScan_pos {d : PyDict} (hp : PosVals d) :
    lowScan d (PyVal.int 0) = Except.ok [] := by
  induction d with
  | nil => rfl
  | cons kv rest ih =>
    obtain ⟨k, v⟩ := kv
    obtain ⟨n, hv, hn⟩ := hp (k, v) (List.mem_cons_self _ _)
    simp only at hv
    subst hv
    have hlt : ¬ (n < (0 : Int)) := by omega
    have ihr := ih fun x hx => hp x (List.mem_cons_of_mem _ hx)
    simp [lowScan, pyLt, hlt, ihr]

lemma lowScan_int {d : PyDict} (h : valsInt d = true) (t : Int) :
    lowScan d (PyVal.int t) = Except.ok (lowItemsSpec d t) := by
  induction d with
  | nil => rfl
  | cons kv rest ih =>
    obtain ⟨k, v⟩ := kv
    rw [valsInt, List.all_cons, Bool.and_eq_true] at h
    obtain ⟨n, hv⟩ : ∃ n, v = PyVal.int n := by
      cases v <;> simp_all
    subst hv
    have ihr := ih h.2
    by_cases hnt : n < t
    · simp [lowScan, pyLt, hnt, ihr, lowItemsSpec, List.filter_cons, qtyBelow]
    · simp [lowScan, pyLt, hnt, ihr, lowItemsSpec, List.filter_cons, qtyBelow]

lemma dumpEntries_id {d : PyDict} (h : strIntDict d = true) :
    dumpEntries d = some d := by
  induction d with
  | nil => rfl
  | cons kv rest ih =>
    obtain ⟨k, v⟩ := kv
    rw [strIntDict, List.all_cons, Bool.and_eq_true] at h
    obtain ⟨⟨s, hs⟩, n, hn⟩ : (∃ s, k = PyVal.str s) ∧ ∃ n, v = PyVal.int n := by
      cases k <;> cases v <;> simp_all
    subst hs
    subst hn
    have ihr := ih h.2
    simp [dumpEntries, keyToJson, dumpJson, ihr]

/-- Claim C1, counterexample: `add_item` performs no clamping, so the
single reachable call `add_item({}, "x", -3)` stores the key with the
non-positive quantity `-3` instead of leaving it absent, violating the
claimed invariant. -/
theorem claim1_counterexample :
    (add_item [] (PyVal.str "x") (PyVal.int (-3)) []).1
        = [(PyVal.str "x", PyVal.int (-3))]
      ∧ invHolds [(PyVal.str "x", PyVal.int (-3))] = false :=
  ⟨rfl, rfl⟩

/-- Claim C1, amended: for every inventory reachable from the empty
inventory by `add_item`/`remove_item` calls whose quantities are
strictly positive, every key present in the mapping is a string with a
strictly positive integer quantity; an operation that would drive a
quantity to zero or below removes the key instead. -/
theorem claim1_positive_invariant (ops : List Op) (h : opsPos ops = true) :
    invHolds (runOps ops) = true :=
  invHolds_of_good (good_runOps h)

/-- Claim C1, witness: the demonstration sequence has positive
quantities and its final inventory satisfies the invariant. -/
theorem claim1_witness :
    opsPos demoOps = true ∧ invHolds (runOps demoOps) = true :=
  ⟨rfl, claim1_positive_invariant demoOps rfl⟩

/-- Claim C2, counterexample: after the single call
`add_item({}, "x", -5)` the clamped running total is 0, so the claim
says "x" is absent, but the code stores it with quantity `-5`. -/
theorem claim2_counterexample :
    lookupVal (runOps [Op.add "x" (-5)]) (PyVal.str "x") = some (PyVal.int (-5))
      ∧ specQty [Op.add "x" (-5)] "x" = 0 :=
  ⟨rfl, rfl⟩

/-- Claim C2, amended: for every sequence of `add_item`/`remove_item`
calls with strictly positive quantities starting from the empty
inventory, each item's final state equals its clamped running total:
absent when the total is ≤ 0, else present with exactly that total. -/
theorem claim2_clamped_total (ops : List Op) (item : String)
    (h : opsPos ops = true) :
    lookupVal (runOps ops) (PyVal.str item)
      = (if specQty ops item ≤ 0 then Option.none
         else some (PyVal.int (specQty ops item))) := by
  have hg := good_runOps h
  have hc := codeQty_runOps h item
  rw [codeQty_lookup hg item, hc]

/-- Claim C2, witness: the demonstration sequence at item "apple". -/
theorem claim2_witness :
    opsPos demoOps = true ∧
      lookupVal (runOps demoOps) (PyVal.str "apple")
        = (if specQty demoOps "apple" ≤ 0 then Option.none
           else some (PyVal.int (specQty demoOps "apple"))) :=
  ⟨rfl, claim2_clamped_total demoOps "apple" rfl⟩

/-- Claim C3: for every inventory with string keys and integer values,
`save_data` to a path succeeds, and `load_data` of that path then
returns a mapping equal to the original inventory. -/
theorem claim3_round_trip (d : PyDict) (fs : FS) (p : String)
    (h : strIntDict d = true) :
    save_data (PyVal.dict d) fs p
        = Except.ok (fsAfterSave d fs p, [LogLevel.info])
      ∧ load_data (fsAfterSave d fs p) p = (PyVal.dict d, [LogLevel.info]) := by
  have hdump : dumpJson (PyVal.dict d) = some (PyVal.dict d) := by
    simp [dumpJson, dumpEntries_id h]
  constructor
  · unfold save_data
    rw [hdump]
    rfl
  · simp [load_data, fsAfterSave]

/-- Claim C3, witness: round trip of the demonstration inventory. -/
theorem claim3_witness :
    strIntDict demoInv = true ∧
      save_data (PyVal.dict demoInv) fsDemo "inventory.json"
        = Except.ok (fsAfterSave demoInv fsDemo "inventory.json",
            [LogLevel.info])
      ∧ load_data (fsAfterSave demoInv fsDemo "inventory.json")
          "inventory.json" = (PyVal.dict demoInv, [LogLevel.info]) :=
  ⟨rfl, (claim3_round_trip demoInv fsDemo "inventory.json" rfl).1,
    (claim3_round_trip demoInv fsDemo "inventory.json" rfl).2⟩

/-- Claim C4: whenever the attempted update of `add_item` raises
`TypeError` (unhashable item key, or a quantity incompatible with `+`),
the exception is caught inside the call, an ERROR-level entry is
logged, and the inventory and the `logs` list are returned unmodified;
no exception escapes (the call is a total function in the model). -/
theorem claim4_add_type_error (data : PyDict) (item qty : PyVal)
    (logs : List AddLog) (h : addAttempt data item qty = Except.error ()) :
    add_item data item qty logs = (data, logs, [LogLevel.error]) := by
  simp [add_item, h]

/-- Claim C4, witness: the demonstration call `add_item(inv, 123,
"ten")` with a non-numeric quantity. -/
theorem claim4_witness :
    addAttempt demoInv (PyVal.int 123) (PyVal.str "ten") = Except.error ()
      ∧ add_item demoInv (PyVal.int 123) (PyVal.str "ten") []
          = (demoInv, [], [LogLevel.error]) :=
  ⟨rfl, claim4_add_type_error demoInv (PyVal.int 123) (PyVal.str "ten") [] rfl⟩

/-- Claim C5: `load_data` on a missing file returns an empty inventory
with a WARNING and does not raise; on a file with invalid JSON it
returns an empty inventory with an ERROR (after the INFO line the
source emits before parsing) and does not raise. -/
theorem claim5_load_failures (fs : FS) (file : String) :
    (fs file = FileContent.missing →
        load_data fs file = (PyVal.dict [], [LogLevel.warning]))
      ∧ (fs file = FileContent.invalid →
        load_data fs file = (PyVal.dict [], [LogLevel.info, LogLevel.error])) := by
  constructor <;> intro h <;> simp [load_data, h]

/-- Claim C5, witness: a missing path and an invalid-JSON path. -/
theorem claim5_witness :
    load_data fsDemo "missing.json" = (PyVal.dict [], [LogLevel.warning])
      ∧ load_data fsDemo "bad.json"
          = (PyVal.dict [], [LogLevel.info, LogLevel.error]) :=
  ⟨(claim5_load_failures fsDemo "missing.json").1 rfl,
    (claim5_load_failures fsDemo "bad.json").2 rfl⟩

/-- Claim C6, counterexample: `get_qty` with an unhashable item (a
Python list) raises `TypeError` from `dict.get`, so the call can fail,
contrary to "never fails, regardless of the type of item". -/
theorem claim6_counterexample :
    (get_qty [] (PyVal.list [])).2 = Except.error () := rfl

/-- Claim C6, amended: for every inventory and every hashable item,
`get_qty` returns the stored quantity when the item is present and 0
when it is absent, and the call never fails. -/
theorem claim6_get_qty_total (d : PyDict) (item : PyVal)
    (hh : item.hashable = true) :
    (lookupVal d item = Option.none →
        (get_qty d item).2 = Except.ok (PyVal.int 0))
      ∧ ∀ v, lookupVal d item = some v →
        (get_qty d item).2 = Except.ok v := by
  constructor
  · intro h
    simp [get_qty, dictGet, hh, h]
  · intro v h
    simp [get_qty, dictGet, hh, h]

/-- Claim C6, witness: an absent and a present item of the
demonstration inventory. -/
theorem claim6_witness :
    (get_qty demoInv (PyVal.str "pear")).2 = Except.ok (PyVal.int 0)
      ∧ (get_qty demoInv (PyVal.str "apple")).2 = Except.ok (PyVal.int 7) :=
  ⟨(claim6_get_qty_total demoInv (PyVal.str "pear") rfl).1 rfl,
    (claim6_get_qty_total demoInv (PyVal.str "apple") rfl).2 (PyVal.int 7) rfl⟩

/-- Claim C7, counterexample: with a non-integer stored quantity the
comparison `quantity < threshold` raises `TypeError`, which
`check_low_items` does not catch, contrary to "never fails". -/
theorem claim7_counterexample :
    (check_low_items [(PyVal.str "a", PyVal.str "x")] (PyVal.int 5)).2
      = Except.error () := rfl

/-- Claim C7, amended: for every inventory whose values are integers
and every integer threshold, `check_low_items` returns exactly the
items whose quantity is strictly below the threshold, in the
inventory's iteration order, and never fails. -/
theorem claim7_low_items_exact (d : PyDict) (t : Int) (h : valsInt d = true) :
    (check_low_items d (PyVal.int t)).2 = Except.ok (lowItemsSpec d t) := by
  simp [check_low_items, lowScan_int h t]

/-- Claim C7, witness: the demonstration inventory at threshold 5. -/
theorem claim7_witness :
    valsInt demoInv = true ∧
      (check_low_items demoInv (PyVal.int 5)).2
        = Except.ok (lowItemsSpec demoInv 5) :=
  ⟨rfl, claim7_low_items_exact demoInv 5 rfl⟩

/-- Claim C8, counterexample: the inventory reached by
`add_item({}, "x", -5)` stores the negative quantity `-5`, so
`check_low_items(inv, 0)` returns `["x"]`, not the empty list. -/
theorem claim8_counterexample :
    (check_low_items (runOps [Op.add "x" (-5)]) (PyVal.int 0)).2
        = Except.ok [PyVal.str "x"]
      ∧ Except.ok [PyVal.str "x"] ≠ (Except.ok [] : Except Unit (List PyVal)) :=
  ⟨rfl, by simp⟩

/-- Claim C8, amended: for every inventory reachable by
`add_item`/`remove_item` calls with strictly positive quantities,
`check_low_items(inv, 0)` returns the empty list, since every stored
quantity is strictly positive. -/
theorem claim8_low_zero_empty (ops : List Op) (h : opsPos ops = true) :
    (check_low_items (runOps ops) (PyVal.int 0)).2 = Except.ok [] := by
  have hg := good_runOps h
  simp [check_low_items, lowScan_pos hg.2.1]

/-- Claim C8, witness: the demonstration sequence. -/
theorem claim8_witness :
    opsPos demoOps = true
      ∧ (check_low_items (runOps demoOps) (PyVal.int 0)).2 = Except.ok [] :=
  ⟨rfl, claim8_low_zero_empty demoOps rfl⟩

/-- Claim C9: for every inventory and every quantity, `remove_item`
on an absent (hashable) item emits exactly a WARNING notice and
returns the inventory unmodified. -/
theorem claim9_remove_absent (data : PyDict) (item qty : PyVal)
    (hh : item.hashable = true) (habs : lookupVal data item = Option.none) :
    remove_item data item qty = (data, [LogLevel.warning]) := by
  simp [remove_item, hh, habs]

/-- Claim C9, witness: removing the absent item "orange" from the
demonstration inventory. -/
theorem claim9_witness :
    (PyVal.str "orange").hashable = true
      ∧ lookupVal demoInv (PyVal.str "orange") = Option.none
      ∧ remove_item demoInv (PyVal.str "orange") (PyVal.int 1)
          = (demoInv, [LogLevel.warning]) :=
  ⟨rfl, rfl,
    claim9_remove_absent demoInv (PyVal.str "orange") (PyVal.int 1) rfl rfl⟩

/-- Claim C10: the query operations `get_qty`, `check_low_items` and
`print_data` never modify the inventory mapping: for every inventory
and arguments the mapping after the call equals the mapping before. -/
theorem claim10_queries_frame (data : PyDict) (item threshold : PyVal) :
    (get_qty data item).1 = data
      ∧ (check_low_items data threshold).1 = data
      ∧ (print_data data).1 = data :=
  ⟨rfl, rfl, rfl⟩
